import Mathlib

/-!
Verification of the IRPF extraction-and-normalization engine.

This file gives a shallow embedding, in Lean 4, of the two source parsers of
the repository — `xml2Pydantic.py` (XML schedule extraction into pydantic
models declared in `IRPF_pydantic_schem_resumido.py`) and `rec2json.py`
(fixed-width legacy record decoding) — together with the fragment of the
Python standard library and of pydantic validation that those parsers rely
on.  Pure Python functions become Lean functions on `String` / `List Char`;
raised exceptions become `Except PyErr` results; `decimal.Decimal` values are
represented by their sign / digit-tuple / exponent triple exactly as Python's
`Decimal.as_tuple` exposes them.  All definitions are executable.
-/

namespace IRPF

/-! ### Python string primitives (the stdlib fragment used by the parsers) -/

/-- Characters treated as whitespace by Python's `str.strip()` (ASCII part). -/
def pyIsSpace (c : Char) : Bool :=
  c = ' ' || c = '\t' || c = '\n' || c = '\r' || c = '\x0b' || c = '\x0c'

/-- Remove leading and trailing whitespace from a character list. -/
def stripChars (l : List Char) : List Char :=
  ((l.dropWhile pyIsSpace).reverse.dropWhile pyIsSpace).reverse

/-- Python `str.strip()`. -/
def pyStrip (s : String) : String := ⟨stripChars s.data⟩

/-- Python `line.rstrip("\r\n")`: drop trailing CR and LF characters. -/
def rstripCRLF (s : String) : String :=
  ⟨(s.data.reverse.dropWhile (fun c => c = '\r' || c = '\n')).reverse⟩

/-- ASCII uppercasing of one character, as Python `str.upper()` acts on the
ASCII flag characters that occur in the declarations. -/
def upperAscii (c : Char) : Char :=
  if 97 ≤ c.toNat ∧ c.toNat ≤ 122 then Char.ofNat (c.toNat - 32) else c

/-- Python `str.upper()` on the ASCII fragment. -/
def pyUpper (s : String) : String := ⟨s.data.map upperAscii⟩

/-- Python `x or default` for an optional string: `None` and `""` are falsy. -/
def pyOr (o : Option String) (d : String) : String :=
  match o with
  | none => d
  | some s => if s = "" then d else s

/-- Python `dict.get(k, default)`: the default applies only when the key is
absent, an empty string stored under the key is returned as is. -/
def optGetD (o : Option String) (d : String) : String :=
  match o with
  | none => d
  | some s => s

/-- Zero fill of `str.zfill`: left pad with `'0'` to the requested width,
inserting the padding after a leading sign when one is present. -/
def zfillChars (l : List Char) (width : Nat) : List Char :=
  if width ≤ l.length then l
  else
    match l with
    | '+' :: rest => '+' :: (List.replicate (width - l.length) '0' ++ rest)
    | '-' :: rest => '-' :: (List.replicate (width - l.length) '0' ++ rest)
    | _ => List.replicate (width - l.length) '0' ++ l

/-- Python `s.zfill(width)`. -/
def pyZfill (s : String) (width : Nat) : String := ⟨zfillChars s.data width⟩

/-- Effective index of a Python slice bound: negative indices count from the
end, and both directions clamp to the string length. -/
def sliceIdx (len : Nat) (i : Int) : Nat :=
  if i < 0 then ((len : Int) + i).toNat else min i.toNat len

/-- Python slice `l[a:b]` on a character list. -/
def sliceChars (l : List Char) (a b : Int) : List Char :=
  (l.drop (sliceIdx l.length a)).take (sliceIdx l.length b - sliceIdx l.length a)

/-- Python slice `s[a:b]`. -/
def pySlice (s : String) (a b : Int) : String := ⟨sliceChars s.data a b⟩

/-- Python slice `s[a:]`. -/
def pySliceFrom (s : String) (a : Int) : String :=
  ⟨s.data.drop (sliceIdx s.data.length a)⟩

/-- Lookup in an association list with string keys, first match wins.  This
models Python `dict` access for the small literal dicts used by the parsers,
whose insertion keys are distinct. -/
def alistGet {α : Type} (k : String) : List (String × α) → Option α
  | [] => none
  | (k', v) :: rest => if k' = k then some v else alistGet k rest

/-! ### Python exceptions and the Decimal fragment -/

/-- Exceptions observable from the embedded code: `decimal.InvalidOperation`,
pydantic's "none is not an allowed value" on a required field, pydantic's
constrained-decimal violation, and `KeyError`. -/
inductive PyErr where
  | invalidOperation
  | noneNotAllowed (field : String)
  | decimalConstraint (field : String)
  | keyError (key : String)
deriving DecidableEq

/-- Decidable equality on `Except` results, for evaluating the embedded
parsers on concrete inputs. -/
instance {ε α : Type} [DecidableEq ε] [DecidableEq α] : DecidableEq (Except ε α)
  | .error e, .error e' =>
    if h : e = e' then isTrue (by rw [h]) else isFalse (by intro hh; cases hh; exact h rfl)
  | .error _, .ok _ => isFalse (by intro h; cases h)
  | .ok _, .error _ => isFalse (by intro h; cases h)
  | .ok a, .ok b =>
    if h : a = b then isTrue (by rw [h]) else isFalse (by intro hh; cases hh; exact h rfl)

/-- A Python `decimal.Decimal` value as exposed by `Decimal.as_tuple()`:
sign, tuple of coefficient digits (no leading zero except for the single
digit of zero itself), and exponent. -/
structure PyDecimal where
  neg : Bool
  digits : List Nat
  exp : Int
deriving DecidableEq

/-- Numeric value of a decimal digit character. -/
def charVal (c : Char) : Nat := c.toNat - 48

/-- ASCII decimal digit test. -/
def isDig (c : Char) : Bool := 48 ≤ c.toNat && c.toNat ≤ 57

/-- Normalize a coefficient digit list as `Decimal` stores it: strip leading
zeros, keeping a single `0` for the value zero. -/
def normDigits (l : List Nat) : List Nat :=
  match l.dropWhile (· = 0) with
  | [] => [0]
  | r => r

/-- Parse of the `decimal.Decimal` constructor on the plain numeric strings
reachable from the cleaned money inputs: optional surrounding whitespace,
optional sign, decimal digits with at most one point.  (Exponent forms,
specials and underscores never occur in the cleaned declaration amounts and
are not modelled; the strings used in the theorems below all stay inside
this fragment.) -/
def pyDecimalParse (l : List Char) : Except PyErr PyDecimal :=
  let l := stripChars l
  let sb : Bool × List Char :=
    match l with
    | [] => (false, [])
    | ch :: r =>
      if ch = '-' then (true, r) else if ch = '+' then (false, r) else (false, ch :: r)
  let ip := sb.2.takeWhile (· ≠ '.')
  let fp := (sb.2.dropWhile (· ≠ '.')).drop 1
  if (ip ++ fp) ≠ [] ∧ (ip ++ fp).all isDig then
    .ok ⟨sb.1, normDigits ((ip ++ fp).map charVal), -(fp.length : Int)⟩
  else
    .error .invalidOperation

/-! ### Money normalizer (`xml2Pydantic.parse_money` and the `Money` type) -/

/-- Cleaning step of `parse_money`: `raw.replace(".", "").replace(",", ".")`. -/
def cleanChars (l : List Char) : List Char :=
  (l.filter (· ≠ '.')).map (fun c => if c = ',' then '.' else c)

/-- String version of the money-cleaning step. -/
def pyClean (s : String) : String := ⟨cleanChars s.data⟩

/-- Embedding of `parse_money`: absent (or falsy) input is replaced by
`"0,00"`, the input is stripped, thousands dots removed, the comma turned
into a decimal point, and the result handed to the `Decimal` constructor.
`Money(...)` applied to an already constructed `Decimal` runs no pydantic
validation (constrained types only validate as model fields), so no digit
bound is checked here. -/
def parse_money (raw : Option String) : Except PyErr PyDecimal :=
  pyDecimalParse (cleanChars (pyStrip (pyOr raw "0,00")).data)

/-- Number of digits and number of decimal places pydantic v1 ascribes to a
decimal, computed from the digit tuple length and the exponent. -/
def moneyDigitCounts (d : PyDecimal) : Nat × Nat :=
  if 0 ≤ d.exp then (d.digits.length + d.exp.toNat, 0)
  else if d.digits.length < d.exp.natAbs then (d.exp.natAbs, d.exp.natAbs)
  else (d.digits.length, d.exp.natAbs)

/-- The `Money = condecimal(max_digits=14, decimal_places=2)` constraint as
pydantic checks it on model fields. -/
def checkMoney (d : PyDecimal) : Bool :=
  (moneyDigitCounts d).1 ≤ 14 && (moneyDigitCounts d).2 ≤ 2

/-- Field validation of a `Money` model field: the constraint violation is
reported as a pydantic error naming the offending field. -/
def validate_money (field : String) (d : PyDecimal) : Except PyErr PyDecimal :=
  if checkMoney d then .ok d else .error (.decimalConstraint field)

/-- Embedding of Python `str()` on a `Decimal` whose exponent is ≤ 0 and
small enough that no scientific notation is used (always the case for the
two-decimal amounts handled here): the decimal point is inserted `|exp|`
digits from the right of the digit tuple, left padding with zeros, and a
leading minus sign is printed for negative values. -/
def decStr (x : PyDecimal) : String :=
  let ds := x.digits.map (fun d => Char.ofNat (48 + d))
  let k := x.exp.natAbs
  let body :=
    if x.exp = 0 then ds
    else if k < ds.length then
      ds.take (ds.length - k) ++ '.' :: ds.drop (ds.length - k)
    else
      '0' :: '.' :: (List.replicate (k - ds.length) '0' ++ ds)
  ⟨(if x.neg then ['-'] else []) ++ body⟩

/-- Canonical form of a locale-decimal string as the specification defines
it: remove all thousands dots, then replace the comma by the canonical
decimal point. -/
def canonical_money (s : String) : String := pyClean s

/-- Integer part of a cleaned decimal string: the characters before the
first point. -/
def intPartOf (c : List Char) : List Char := c.takeWhile (· ≠ '.')

/-- Remainder of a cleaned decimal string from the first point on. -/
def restOf (c : List Char) : List Char := c.dropWhile (· ≠ '.')

/-- Valid locale-decimal strings in the sense of the specification: only
digits and separators, a comma followed by exactly two fraction digits, a
nonempty integer part of at most 12 digits with no leading zero unless the
integer part is the single digit `0`. -/
def validMoneyLocale (s : String) : Bool :=
  s.data.all (fun ch => isDig ch || ch = '.' || ch = ',') &&
    (restOf (cleanChars s.data)).length = 3 &&
    ((restOf (cleanChars s.data)).drop 1).all isDig &&
    intPartOf (cleanChars s.data) ≠ [] &&
    (intPartOf (cleanChars s.data)).all isDig &&
    (intPartOf (cleanChars s.data)).length ≤ 12 &&
    ((intPartOf (cleanChars s.data)).length = 1 ||
      (intPartOf (cleanChars s.data)).headD '0' ≠ '0')

/-! ### Schedule record models (`IRPF_pydantic_schem_resumido.py`)

Pydantic validates the fields of a model in declaration order; each
validator of a field receives in `values` only the fields already
validated, i.e. the ones declared before it.  Errors are raised as
exceptions, so construction of a model is an `Except` computation. -/

/-- Heterogeneous value stored in the pydantic `values` dict during model
validation. -/
inductive FieldVal where
  | s (v : String)
  | d (v : PyDecimal)
  | b (v : Bool)
  | o (v : Option String)
deriving DecidableEq

/-- Lookup in the `values` dict. -/
def lookupField (k : String) : List (String × FieldVal) → Option FieldVal
  | [] => none
  | (k', v) :: rest => if k' = k then some v else lookupField k rest

/-- The `BemDireito.auto_repeat` validator on `valor_2024`: when
`values.get("repetir_valor")` is truthy it returns `values["valor_2023"]`,
otherwise the incoming value.  Because `repetir_valor` is declared after
`valor_2024`, it is never present in `values` when this validator runs. -/
def auto_repeat (v : PyDecimal) (values : List (String × FieldVal)) : Except PyErr PyDecimal :=
  match lookupField "repetir_valor" values with
  | some (.b true) =>
    match lookupField "valor_2023" values with
    | some (.d m) => .ok m
    | _ => .error (.keyError "valor_2023")
  | _ => .ok v

/-- An asset line of the "Bens e Direitos" schedule. -/
structure BemDireito where
  grupo : String
  codigo : String
  pais : String
  discriminacao : String
  valor_2023 : PyDecimal
  valor_2024 : PyDecimal
  repetir_valor : Bool
deriving DecidableEq

/-- Pydantic construction of `BemDireito` with the keyword arguments used by
`parse_bens`.  The `pais` field carries the alias `localizacao_pais`; since
population by field name is not enabled, the `pais=` keyword is ignored and
the field always takes its default `"105"`.  Fields are validated in
declaration order, `auto_repeat` runs on `valor_2024` with the previously
validated fields as `values`. -/
def BemDireito.construct (grupo codigo _pais_kwarg discriminacao : String)
    (situacao_31_12_2023 situacao_31_12_2024 : PyDecimal) (repetir_valor : Bool) :
    Except PyErr BemDireito :=
  let values : List (String × FieldVal) :=
    [("grupo", .s grupo), ("codigo", .s codigo), ("pais", .s "105"),
     ("discriminacao", .s discriminacao)]
  match validate_money "situacao_31_12_2023" situacao_31_12_2023 with
  | .error e => .error e
  | .ok v23 =>
    match validate_money "situacao_31_12_2024" situacao_31_12_2024 with
    | .error e => .error e
    | .ok v24p =>
      match auto_repeat v24p (values ++ [("valor_2023", .d v23)]) with
      | .error e => .error e
      | .ok v24 =>
        .ok { grupo := grupo, codigo := codigo, pais := "105",
              discriminacao := discriminacao, valor_2023 := v23,
              valor_2024 := v24, repetir_valor := repetir_valor }

/-- An item of the "Rendimentos Isentos e Não Tributáveis" schedule. -/
structure RendIsento where
  tipo_rendimento : String
  tipo_beneficiario : String
  beneficiario : Option String
  cnpj_fonte_pagadora : Option String
  nome_fonte_pagadora : Option String
  valor : PyDecimal
deriving DecidableEq

/-- Pydantic construction of `RendIsento`: every string field is optional
except `tipo_rendimento` (always supplied), so only the `Money` constraint
on `valor` can fail. -/
def RendIsento.construct (tipo_rendimento tipo_beneficiario : String)
    (beneficiario cnpj nome : Option String) (valor : PyDecimal) :
    Except PyErr RendIsento :=
  match validate_money "valor" valor with
  | .error e => .error e
  | .ok v => .ok ⟨tipo_rendimento, tipo_beneficiario, beneficiario, cnpj, nome, v⟩

/-- An item of the "Rendimentos Sujeitos à Tributação Exclusiva/Definitiva"
schedule; here the payer tax id and payer name are required. -/
structure RendExclusivo where
  tipo_rendimento : String
  tipo_beneficiario : String
  beneficiario : Option String
  cnpj_fonte_pagadora : String
  nome_fonte_pagadora : String
  valor : PyDecimal
deriving DecidableEq

/-- Pydantic rejection of `None` in a required `str` field. -/
def requireStr (field : String) : Option String → Except PyErr String
  | some s => .ok s
  | none => .error (.noneNotAllowed field)

/-- Pydantic construction of `RendExclusivo`, validating fields in
declaration order: the required `cnpj_fonte_pagadora` and
`nome_fonte_pagadora` reject an absent attribute, then the `Money`
constraint on `valor` is checked. -/
def RendExclusivo.construct (tipo_rendimento tipo_beneficiario : String)
    (beneficiario cnpj nome : Option String) (valor : PyDecimal) :
    Except PyErr RendExclusivo :=
  match requireStr "cnpj_fonte_pagadora" cnpj with
  | .error e => .error e
  | .ok c =>
    match requireStr "nome_fonte_pagadora" nome with
    | .error e => .error e
    | .ok n =>
      match validate_money "valor" valor with
      | .error e => .error e
      | .ok v => .ok ⟨tipo_rendimento, tipo_beneficiario, beneficiario, c, n, v⟩

/-! ### XML schedule extraction (`xml2Pydantic.py`) -/

/-- An XML `item` element, reduced to its attribute dictionary (all data of
the declaration is carried in attributes). -/
structure XmlItem where
  attrib : List (String × String)
deriving DecidableEq

/-- Python `item.attrib.get(name)`. -/
def XmlItem.get (it : XmlItem) (k : String) : Option String := alistGet k it.attrib

/-- An XML container element relevant to income extraction: its local tag
(namespace already stripped, as `tag.split('}', 1)[-1]` does) and its `item`
children. -/
structure Panel where
  tag : String
  items : List XmlItem
deriving DecidableEq

/-- The fragment of a parsed declaration document traversed by the claims:
the `bens` items, the descendant elements of `rendIsentos` (each with its
item children), and the `rendTributacaoExclusiva` sections, each a list of
auxiliary panels whose descendant `item` elements have that panel as
parent. -/
structure XmlDoc where
  bens : List XmlItem
  rendIsentosElems : List Panel
  rendTributacaoExclusiva : List (List Panel)
deriving DecidableEq

/-- The `BENEFICIARIO_MAP` dict of flag letters to beneficiary roles. -/
def BENEFICIARIO_MAP : List (String × String) :=
  [("T", "titular"), ("D", "dependente"), ("A", "alimentando"), ("V", "alimentando")]

/-- Embedding of `beneficiario_from_flag`: an absent or falsy flag defaults
to `"T"`, the flag is uppercased and looked up in `BENEFICIARIO_MAP` with
default `"titular"`. -/
def beneficiario_from_flag (flag : Option String) : String :=
  (alistGet (pyUpper (pyOr flag "T")) BENEFICIARIO_MAP).getD "titular"

/-- Embedding of `normalise_codigo`: a truthy (nonempty) code is zero filled
to two characters, a falsy (empty) code is returned unchanged. -/
def normalise_codigo (cod : String) : String :=
  if cod ≠ "" then pyZfill cod 2 else cod

/-- Embedding of `first_attrib`: the first non-empty attribute among the
given names, else the default. -/
def first_attrib (el : XmlItem) (attrs : List String) (default : Option String) :
    Option String :=
  match attrs with
  | [] => default
  | a :: rest =>
    match el.get a with
    | some v => if v ≠ "" then some v else first_attrib el rest default
    | none => first_attrib el rest default

/-- Fail-fast effectful map: the loop bodies of the schedule extractors
append constructed records in file order and any raised exception aborts
the whole loop, which is exactly `Except`-monadic mapping. -/
def mapME {α β : Type} (f : α → Except PyErr β) : List α → Except PyErr (List β)
  | [] => .ok []
  | x :: xs =>
    match f x with
    | .error e => .error e
    | .ok y =>
      match mapME f xs with
      | .error e => .error e
      | .ok ys => .ok (y :: ys)

/-- Body of the `parse_bens` loop for one `bens` item. -/
def bemFromItem (item : XmlItem) : Except PyErr BemDireito :=
  let grupo1 := pyStrip (pyOr (item.get "grupo") "")
  let codigo1 := pyStrip (pyOr (item.get "codigo") "")
  let grupo := if grupo1 = "" ∨ codigo1 = "" then (if grupo1 = "" then "00" else grupo1) else grupo1
  let codigo := if grupo1 = "" ∨ codigo1 = "" then (if codigo1 = "" then "00" else codigo1) else codigo1
  match parse_money (item.get "valorExercicioAnterior") with
  | .error e => .error e
  | .ok s23 =>
    match parse_money (item.get "valorExercicioAtual") with
    | .error e => .error e
    | .ok s24 =>
      BemDireito.construct (normalise_codigo grupo) (normalise_codigo codigo)
        (optGetD (item.get "pais") "105")
        (pyStrip (pyOr (item.get "discriminacao") ""))
        s23 s24 false

/-- Embedding of `parse_bens`. -/
def parse_bens (doc : XmlDoc) : Except PyErr (List BemDireito) :=
  mapME bemFromItem doc.bens

/-- Body of the `parse_rend_isentos` loop for one item of a panel with the
given (local) tag. -/
def isentoFromItem (tipo : String) (item : XmlItem) : Except PyErr RendIsento :=
  match parse_money (item.get "valor") with
  | .error e => .error e
  | .ok v =>
    RendIsento.construct tipo (beneficiario_from_flag (item.get "tipoBeneficiario"))
      (item.get "cpfBeneficiario") (item.get "cnpjEmpresa")
      (first_attrib item ["nomeFonte", "descricaoRendimento"] none) v

/-- Embedding of `parse_rend_isentos`: every descendant of `rendIsentos`
whose tag ends in `QuadroAuxiliar` contributes its items, tagged with the
container's tag, flattened in document order. -/
def parse_rend_isentos (doc : XmlDoc) : Except PyErr (List RendIsento) :=
  match mapME
      (fun q => mapME (isentoFromItem q.tag) q.items)
      (doc.rendIsentosElems.filter (fun q => "QuadroAuxiliar".data.isSuffixOf q.tag.data)) with
  | .error e => .error e
  | .ok ls => .ok ls.flatten

/-- Body of the `parse_rend_exclusivos` loop for one item whose parent panel
has the given (local) tag. -/
def exclusivoFromItem (tipo : String) (item : XmlItem) : Except PyErr RendExclusivo :=
  match parse_money (item.get "valor") with
  | .error e => .error e
  | .ok v =>
    RendExclusivo.construct tipo (beneficiario_from_flag (item.get "tipoBeneficiario"))
      (item.get "cpfBeneficiario") (item.get "cnpjEmpresa") (item.get "nomeFonte") v

/-- Extraction over one `rendTributacaoExclusiva` section: the items of
each panel, tagged with their parent panel's tag, in document order. -/
def sectionExclusivos (sec : List Panel) : Except PyErr (List RendExclusivo) :=
  match mapME (fun panel => mapME (exclusivoFromItem panel.tag) panel.items) sec with
  | .error e => .error e
  | .ok ps => .ok ps.flatten

/-- Embedding of `parse_rend_exclusivos`: every `rendTributacaoExclusiva`
section contributes the items of its panels, each item tagged with its
parent panel's tag, flattened in document order. -/
def parse_rend_exclusivos (doc : XmlDoc) : Except PyErr (List RendExclusivo) :=
  match mapME sectionExclusivos doc.rendTributacaoExclusiva with
  | .error e => .error e
  | .ok ss => .ok ss.flatten

/-! ### Fixed-width legacy record decoding (`rec2json.py`) -/

/-- The positional layout registry: per record-type tag, the ordered field
layout as (name, start column, end column). -/
def LAYOUTS : List (String × List (String × Nat × Nat)) :=
  [("HC",
    [("TP_REG", 0, 2),
     ("NR_CPF_CNPJ", 2, 13),
     ("FILLER", 13, 16),
     ("NR_CONTROLE", 16, 26)]),
   ("RC",
    [("TP_REG", 0, 2),
     ("NR_CPF_CNPJ", 2, 13),
     ("FILLER1", 13, 16),
     ("DIAREC", 16, 18),
     ("MESREC", 18, 20),
     ("ANOREC", 20, 24),
     ("HORAREC", 24, 26),
     ("MINREC", 26, 28),
     ("SEGREC", 28, 30),
     ("LOCALREC", 30, 55),
     ("NR_REMESSA", 55, 59),
     ("ASSINATURA", 59, 69),
     ("IN_GATEWAY", 69, 70),
     ("FILLER2", 70, 71),
     ("IN_APLIC_TRANSMISSAO", 71, 72),
     ("APLIC_TRANSMISSAO", 72, 74),
     ("COD_AG_TRANSMISSOR", 74, 77),
     ("NI_ASSINATURA_DECL", 77, 91),
     ("CONTROLE_SRF", 91, 101),
     ("FILLER3", 101, 121),
     ("NR_CONTROLE", 121, 131)]),
   ("NC",
    [("TP_REG", 0, 2),
     ("IN_ACAO_FISCAL", 2, 3),
     ("NM_DELEGADO", 3, 63),
     ("NR_MATRIC_DELEGADO", 63, 71),
     ("NR_CARGO", 71, 72),
     ("NR_UA", 72, 79),
     ("NM_UA", 79, 129),
     ("DT_VENCIMENTO", 129, 137),
     ("QT_MESES", 137, 139),
     ("VR_MULTA", 139, 152),
     ("NR_DISTRIBUICAO", 152, 166),
     ("IN_OBRIGATORIEDADE", 166, 167),
     ("TP_DELEGACIA", 167, 224),
     ("FILLER", 224, 252),
     ("NR_CONTROLE", 252, 262)]),
   ("VC",
    [("TP_REG", 0, 2),
     ("IN_PENDENCIA", 2, 7),
     ("QTD_RETIFICADORAS", 7, 10),
     ("IN_DEBITO", 10, 11),
     ("DATA_MENSAGEM", 11, 19),
     ("IN_SALDO_RESTITUICAO", 19, 20),
     ("DATA_SALDO_RESTITUICAO", 20, 28),
     ("NR_CPF_DARF1", 28, 39),
     ("VL_DARF1", 39, 52),
     ("NR_CPF_DARF2", 52, 63),
     ("VL_DARF2", 63, 76),
     ("NR_CPF_DARF3", 76, 87),
     ("VL_DARF3", 87, 100),
     ("NR_CPF_DARF4", 100, 111),
     ("VL_DARF4", 111, 124),
     ("NR_CPF_DARF5", 124, 135),
     ("VL_DARF5", 135, 148),
     ("NR_CPF_DARF6", 148, 159),
     ("VL_DARF6", 159, 172),
     ("NR_CPF_DARF7", 172, 183),
     ("VL_DARF7", 183, 196),
     ("NR_CONTROLE", 196, 206)]),
   ("TC",
    [("TP_REG", 0, 2),
     ("NR_CPF_CNPJ", 2, 13),
     ("FILLER", 13, 16),
     ("SIGNET", 16, 48),
     ("NR_CONTROLE", 48, 58)])]

/-- Embedding of `parse_line`: the first two characters select a layout;
when found, every declared column range is sliced and trimmed into a named
field; the special `MC` message type is decoded as tag, trimmed middle body
and the last ten characters; anything else becomes an `UNKNOWN` record
carrying the trimmed line. -/
def parse_line (line : String) : List (String × String) :=
  let regType := pySlice line 0 2
  match alistGet regType LAYOUTS with
  | some layout =>
    layout.map (fun f => (f.1, pyStrip (pySlice line (f.2.1 : Int) (f.2.2 : Int))))
  | none =>
    if regType = "MC" then
      [("TP_REG", "MC"),
       ("DES_MENSAGEM", pyStrip (pySlice line 2 (-10))),
       ("NR_CONTROLE", pySliceFrom line (-10))]
    else
      [("TP_REG", "UNKNOWN"), ("RAW", pyStrip line)]

/-- The bundle built by `parse_rec_file`: singleton slots for `HC`, `RC`,
`VC` and `TC`, append-only lists for `NC`, `MC` and unknown records. -/
structure RecData where
  HC : List (String × String)
  RC : List (String × String)
  NC : List (List (String × String))
  VC : List (String × String)
  MC : List (List (String × String))
  TC : List (String × String)
  UNKNOWN : List (List (String × String))
deriving DecidableEq

/-- The initial empty bundle. -/
def emptyRecData : RecData := ⟨[], [], [], [], [], [], []⟩

/-- One iteration of the `parse_rec_file` loop: decode the line (after
stripping its terminator) and classify it by its `TP_REG` value. -/
def recStep (data : RecData) (line : String) : RecData :=
  let record := parse_line (rstripCRLF line)
  let kind := (alistGet "TP_REG" record).getD "UNKNOWN"
  if kind = "HC" then { data with HC := record }
  else if kind = "RC" then { data with RC := record }
  else if kind = "NC" then { data with NC := data.NC ++ [record] }
  else if kind = "VC" then { data with VC := record }
  else if kind = "MC" then { data with MC := data.MC ++ [record] }
  else if kind = "TC" then { data with TC := record }
  else { data with UNKNOWN := data.UNKNOWN ++ [record] }

/-- Embedding of `parse_rec_file`, taking the lines of the file in order. -/
def parse_rec_file (lines : List String) : RecData :=
  lines.foldl recStep emptyRecData

/-- Classification key of a raw line, as `parse_rec_file` computes it. -/
def recKind (line : String) : String :=
  (alistGet "TP_REG" (parse_line (rstripCRLF line))).getD "UNKNOWN"

/-! ### Concrete inputs used by the theorems -/

/-- Well-formed exempt-income item carrying an explicit payer name. -/
def itemIsento1 : XmlItem :=
  ⟨[("valor", "100,00"), ("nomeFonte", "Banco A"), ("tipoBeneficiario", "T")]⟩

/-- Well-formed exempt-income item identified only by a description. -/
def itemIsento2 : XmlItem :=
  ⟨[("valor", "200,00"), ("descricaoRendimento", "Rendimento de poupanca")]⟩

/-- Exclusive-income item lacking the required payer tax id attribute. -/
def itemSemCnpj : XmlItem :=
  ⟨[("nomeFonte", "Corretora X"), ("valor", "300,00")]⟩

/-- Fully well-formed exclusive-income item. -/
def itemComCnpj : XmlItem :=
  ⟨[("cnpjEmpresa", "12345678000199"), ("nomeFonte", "Banco B"), ("valor", "50,00")]⟩

/-- Document of the specification's test scenario: one exempt-income
auxiliary panel with two well-formed items, one exclusive-income panel with
a single item missing the payer tax id. -/
def docMisto : XmlDoc :=
  ⟨[],
   [⟨"rendimentosPoupancaQuadroAuxiliar", [itemIsento1, itemIsento2]⟩],
   [[⟨"rendAplicacoesQuadroAuxiliar", [itemSemCnpj]⟩]]⟩

/-- Document whose exclusive-income panel has a bad first item followed by a
well-formed one, probing whether extraction continues past the bad row. -/
def docSegue : XmlDoc :=
  ⟨[], [], [[⟨"rendAplicacoesQuadroAuxiliar", [itemSemCnpj, itemComCnpj]⟩]]⟩

/-- Asset document with one ordinary asset item. -/
def docBens : XmlDoc :=
  ⟨[⟨[("grupo", "1"), ("codigo", "1"), ("discriminacao", "Conta corrente"),
      ("valorExercicioAnterior", "1.000,00"), ("valorExercicioAtual", "2.000,00")]⟩],
   [], []⟩

/-- Legacy file of the specification's test scenario: one header, one
receipt, three notifications and one trailer line. -/
def recFileSample : List String := ["HC1", "RC1", "NC1", "NC2", "NC3", "TC1"]

/-! ### Helper lemmas -/

theorem mapME_ok_mem {α β : Type} (f : α → Except PyErr β) (l : List α) (ys : List β)
    (h : mapME f l = .ok ys) : ∀ y ∈ ys, ∃ x ∈ l, f x = .ok y := by
  induction l generalizing ys with
  | nil =>
    simp only [mapME] at h
    cases h
    simp
  | cons x xs ih =>
    simp only [mapME] at h
    cases hfx : f x with
    | error e => rw [hfx] at h; cases h
    | ok y0 =>
      rw [hfx] at h
      cases hm : mapME f xs with
      | error e => rw [hm] at h; cases h
      | ok ys0 =>
        rw [hm] at h
        cases h
        intro y hy
        rcases List.mem_cons.mp hy with hy | hy
        · exact ⟨x, List.mem_cons_self x xs, hy ▸ hfx⟩
        · rcases ih ys0 hm y hy with ⟨x', hx', hfx'⟩
          exact ⟨x', List.mem_cons_of_mem x hx', hfx'⟩

theorem mapME_error_of_mem {α β : Type} (f : α → Except PyErr β) {l : List α} {x : α}
    (hx : x ∈ l) (he : ∃ e, f x = .error e) : ∃ e, mapME f l = .error e := by
  induction l with
  | nil => cases hx
  | cons y ys ih =>
    simp only [mapME]
    cases hfy : f y with
    | error e => exact ⟨e, rfl⟩
    | ok v =>
      rcases List.mem_cons.mp hx with hx | hx
      · rcases he with ⟨e, he⟩
        rw [hx] at he
        rw [hfy] at he
        cases he
      · rcases ih hx with ⟨e, hmap⟩
        rw [hmap]
        exact ⟨e, rfl⟩

theorem validate_money_ok {f : String} {d v : PyDecimal}
    (h : validate_money f d = .ok v) : v = d := by
  unfold validate_money at h
  split at h
  · cases h; rfl
  · cases h

theorem auto_repeat_no_flag (v : PyDecimal) (a b c d e : FieldVal) :
    auto_repeat v
      [("grupo", a), ("codigo", b), ("pais", c), ("discriminacao", d), ("valor_2023", e)] =
      .ok v := by
  simp [auto_repeat, lookupField]

theorem zfillChars_length (l : List Char) (w : Nat) :
    (zfillChars l w).length = max w l.length := by
  unfold zfillChars
  split
  next h => omega
  next h =>
    split
    next => simp; omega
    next => simp; omega
    next => simp; omega

theorem data_ne_nil_of_ne_empty {s : String} (h : s ≠ "") : s.data ≠ [] := by
  intro hd
  apply h
  cases s with
  | mk data => cases hd; rfl

theorem sliceChars_eq_nil {l : List Char} {a b : Nat} (h : l.length ≤ a) :
    sliceChars l (a : Int) (b : Int) = [] := by
  unfold sliceChars sliceIdx
  have ha : ¬((a : Int) < 0) := by omega
  have hb : ¬((b : Int) < 0) := by omega
  simp only [ha, hb, if_false, Int.toNat_natCast]
  rw [Nat.min_eq_right h, List.drop_length]
  simp

/-! ### Claim C2 — code normalizer on empty input -/

/-- C2, counterexample.  The claim states `normalize_code("") = "00"`; in
the code `normalise_codigo` returns a falsy (empty) code unchanged, so the
empty string maps to itself, not to `"00"`. -/
theorem claim_C2_counterexample :
    normalise_codigo "" = "" ∧ normalise_codigo "" ≠ "00" := by decide

/-- C2, amended.  The code normalizer left pads nonempty input to width 2
with leading zeros — `normalize_code("1") = "01"`, `normalize_code("11") =
"11"`, and in general the result of a nonempty code has length
`max 2 len` — but the empty string is passed through unchanged
(`normalize_code("") = ""`); the substitution of `"00"` for empty codes
happens in the asset extractor before normalization, not here. -/
theorem claim_C2 :
    normalise_codigo "" = "" ∧ normalise_codigo "1" = "01" ∧ normalise_codigo "11" = "11" ∧
    ∀ s : String, s ≠ "" → (normalise_codigo s).data.length = max 2 s.data.length := by
  refine ⟨by decide, by decide, by decide, ?_⟩
  intro s hs
  simp only [normalise_codigo, if_pos hs, pyZfill]
  exact zfillChars_length s.data 2

/-- C2, witness for the amended claim's universally quantified part. -/
theorem claim_C2_witness :
    ("1" : String) ≠ "" ∧ (normalise_codigo "1").data.length = max 2 ("1" : String).data.length :=
  ⟨by decide, claim_C2.2.2.2 "1" (by decide)⟩

/-! ### Claim C3 — carry-forward equality is not actually enforced -/

/-- C3, code bug.  The `auto_repeat` validator is meant to force
`valor_2024 = valor_2023` whenever `repetir_valor` is true, but pydantic
hands a validator only the fields declared before the validated field, and
`repetir_valor` is declared after `valor_2024`; the lookup therefore never
finds the flag and the record below is constructed with
`repetir_valor = true` and two different period values, violating the
claimed invariant. -/
theorem claim_C3 :
    BemDireito.construct "01" "01" "105" "Apartamento" ⟨false, [1, 0, 0, 0, 0], -2⟩
        ⟨false, [2, 0, 0, 0, 0], -2⟩ true =
      .ok ⟨"01", "01", "105", "Apartamento", ⟨false, [1, 0, 0, 0, 0], -2⟩,
           ⟨false, [2, 0, 0, 0, 0], -2⟩, true⟩ ∧
    (⟨false, [2, 0, 0, 0, 0], -2⟩ : PyDecimal) ≠ ⟨false, [1, 0, 0, 0, 0], -2⟩ := by decide

/-! ### Claim C6 — beneficiary-role mapper -/

/-- C6.  The beneficiary-role mapper sends an absent flag to `titular`,
`"D"` to `dependente` and `"v"` to `alimentando`; in general it uppercases
the flag and maps `T`, `D`, `A`, `V` to their roles, and any flag whose
uppercasing is not in the map falls back to `titular`. -/
theorem claim_C6 :
    beneficiario_from_flag none = "titular" ∧
    beneficiario_from_flag (some "D") = "dependente" ∧
    beneficiario_from_flag (some "v") = "alimentando" ∧
    (∀ s : String, pyUpper s = "T" → beneficiario_from_flag (some s) = "titular") ∧
    (∀ s : String, pyUpper s = "D" → beneficiario_from_flag (some s) = "dependente") ∧
    (∀ s : String, pyUpper s = "A" → beneficiario_from_flag (some s) = "alimentando") ∧
    (∀ s : String, pyUpper s = "V" → beneficiario_from_flag (some s) = "alimentando") ∧
    (∀ s : String, alistGet (pyUpper s) BENEFICIARIO_MAP = none →
      beneficiario_from_flag (some s) = "titular") := by
  refine ⟨by decide, by decide, by decide, ?_, ?_, ?_, ?_, ?_⟩ <;> intro s h <;>
    by_cases hs : s = ""
  · rw [hs] at h; exact absurd h (by decide)
  · simp only [beneficiario_from_flag, pyOr, if_neg hs, h]; decide
  · rw [hs] at h; exact absurd h (by decide)
  · simp only [beneficiario_from_flag, pyOr, if_neg hs, h]; decide
  · rw [hs] at h; exact absurd h (by decide)
  · simp only [beneficiario_from_flag, pyOr, if_neg hs, h]; decide
  · rw [hs] at h; exact absurd h (by decide)
  · simp only [beneficiario_from_flag, pyOr, if_neg hs, h]; decide
  · rw [hs]; decide
  · simp only [beneficiario_from_flag, pyOr, if_neg hs, h]; decide

/-- C6, witness for the universally quantified parts. -/
theorem claim_C6_witness :
    pyUpper "d" = "D" ∧ beneficiario_from_flag (some "d") = "dependente" :=
  ⟨by decide, claim_C6.2.2.2.2.1 "d" (by decide)⟩

/-! ### Claim C5 — money normalizer error behavior -/

/-- C5, counterexample.  The claim states the normalizer fails whenever the
cleaned string exceeds the 12-integer-digit magnitude bound; in the code
`Money(Decimal(clean))` runs no pydantic validation (constrained types only
validate as model fields), so a 13-integer-digit amount is returned
successfully even though it violates the `Money` constraint. -/
theorem claim_C5_counterexample :
    parse_money (some "9.999.999.999.999,99") =
      .ok ⟨false, [9, 9, 9, 9, 9, 9, 9, 9, 9, 9, 9, 9, 9, 9, 9], -2⟩ ∧
    checkMoney ⟨false, [9, 9, 9, 9, 9, 9, 9, 9, 9, 9, 9, 9, 9, 9, 9], -2⟩ = false := by decide

/-- C5, amended.  The money normalizer treats an absent input as `"0,00"`,
producing exactly zero with two fraction digits; a cleaned string that is
not a valid decimal raises `InvalidOperation` (the code-level
`MalformedAmount`), which propagates instead of being replaced by zero; but
the 12-integer-digit magnitude bound is not checked by the normalizer
itself — it is enforced only downstream, when the value is validated as a
`Money` model field. -/
theorem claim_C5 :
    parse_money none = .ok ⟨false, [0], -2⟩ ∧
    parse_money (some "abc") = .error .invalidOperation ∧
    validate_money "valor" ⟨false, [9, 9, 9, 9, 9, 9, 9, 9, 9, 9, 9, 9, 9, 9, 9], -2⟩ =
      .error (.decimalConstraint "valor") ∧
    ∀ s : String, s ≠ "" →
      pyDecimalParse (cleanChars (pyStrip s).data) = .error .invalidOperation →
      parse_money (some s) = .error .invalidOperation := by
  refine ⟨by decide, by decide, by decide, ?_⟩
  intro s hs h
  simp only [parse_money, pyOr, if_neg hs]
  exact h

/-- C5, witness for the amended claim's universally quantified part. -/
theorem claim_C5_witness :
    ("12,3,4" : String) ≠ "" ∧ parse_money (some "12,3,4") = .error .invalidOperation :=
  ⟨by decide, claim_C5.2.2.2 "12,3,4" (by decide) (by decide)⟩

/-! ### Claim C7 — short lines decode without error -/

/-- C7.  For a line whose two-character type selects a declared layout, the
decoder always produces one named field per declared column range (it never
raises), and every field whose start offset lies at or beyond the end of
the line comes back empty — Python slicing beyond the line length yields
empty segments. -/
theorem claim_C7 :
    ∀ (line : String) (layout : List (String × Nat × Nat)),
      alistGet (pySlice line 0 2) LAYOUTS = some layout →
      (parse_line line).length = layout.length ∧
      ∀ f a b, (f, a, b) ∈ layout → line.data.length ≤ a →
        (f, ("" : String)) ∈ parse_line line := by
  intro line layout h
  simp only [parse_line, h]
  constructor
  · exact List.length_map _ _
  · intro f a b hmem hlen
    have : (f, ("" : String)) =
        (fun g : String × Nat × Nat => (g.1, pyStrip (pySlice line (g.2.1 : Int) (g.2.2 : Int)))) (f, a, b) := by
      simp only [pySlice, pyStrip]
      rw [sliceChars_eq_nil hlen]
      rfl
    rw [this]
    exact List.mem_map_of_mem _ hmem

/-- C7, witness: the notification line `"NC1"` is far shorter than its
layout's maximum offset 262; it decodes fully, with the name field (columns
3–63) empty. -/
theorem claim_C7_witness :
    (parse_line "NC1").length = ((alistGet "NC" LAYOUTS).getD []).length ∧
    ("NM_DELEGADO", ("" : String)) ∈ parse_line "NC1" :=
  ⟨(claim_C7 "NC1" ((alistGet "NC" LAYOUTS).getD []) (by decide)).1,
   (claim_C7 "NC1" ((alistGet "NC" LAYOUTS).getD []) (by decide)).2
     "NM_DELEGADO" 3 63 (by decide) (by decide)⟩

/-! ### Claim C8 — unknown prefixes and the message record -/

/-- C8, counterexample.  The claim states the Unknown variant carries the
raw line; the code stores `line.strip()`, so a line with trailing
whitespace is not carried verbatim. -/
theorem claim_C8_counterexample :
    parse_line "ZZ hello " = [("TP_REG", "UNKNOWN"), ("RAW", "ZZ hello")] ∧
    ("ZZ hello" : String) ≠ "ZZ hello " := by decide

/-- C8, amended.  For a line whose two-character type is not in the layout
registry: the message type `MC` is decoded into the identifying tag, the
trimmed free-text body `line[2:-10]`, and the trailing control field
`line[-10:]` (exactly 10 characters whenever the line is at least 12
characters long); any other unknown type yields an `UNKNOWN` record
carrying the whitespace-trimmed (not raw) line. -/
theorem claim_C8 :
    ∀ line : String, alistGet (pySlice line 0 2) LAYOUTS = none →
      (pySlice line 0 2 = "MC" →
        parse_line line =
          [("TP_REG", "MC"), ("DES_MENSAGEM", pyStrip (pySlice line 2 (-10))),
           ("NR_CONTROLE", pySliceFrom line (-10))] ∧
        (12 ≤ line.data.length → (pySliceFrom line (-10)).data.length = 10)) ∧
      (pySlice line 0 2 ≠ "MC" →
        parse_line line = [("TP_REG", "UNKNOWN"), ("RAW", pyStrip line)]) := by
  intro line h
  constructor
  · intro hmc
    constructor
    · simp only [parse_line, h, hmc]
      rfl
    · intro hlen
      simp only [pySliceFrom, sliceIdx]
      have hneg : (-10 : Int) < 0 := by omega
      rw [if_pos hneg]
      simp only [List.length_drop]
      omega
  · intro hnmc
    simp only [parse_line, h, if_neg hnmc]

/-- C8, witness: a message line long enough to exhibit the fixed-width
10-character control field. -/
theorem claim_C8_witness :
    parse_line "MC um aviso 0123456789" =
      [("TP_REG", "MC"), ("DES_MENSAGEM", pyStrip (pySlice "MC um aviso 0123456789" 2 (-10))),
       ("NR_CONTROLE", pySliceFrom "MC um aviso 0123456789" (-10))] ∧
    (pySliceFrom "MC um aviso 0123456789" (-10)).data.length = 10 :=
  ⟨((claim_C8 "MC um aviso 0123456789" (by decide)).1 (by decide)).1,
   ((claim_C8 "MC um aviso 0123456789" (by decide)).1 (by decide)).2 (by decide)⟩

/-! ### Claim C9 — legacy record aggregation -/

/-- C9.  The aggregator folds decoded lines in file order: appending a line
of a singleton type (`HC`, `RC`, `VC`, `TC`) overwrites that slot with its
record (last write wins), appending a line of a multi-occurrence type
(`NC`, `MC`) appends its record at the end of the respective list; the
specification's sample file of one header, one receipt, three notifications
and one trailer yields exactly the three notification records in original
order, populated header, receipt and trailer singletons, and an empty
unknown-record list. -/
theorem claim_C9 :
    (∀ (lines : List String) (l : String),
      (recKind l = "HC" →
        (parse_rec_file (lines ++ [l])).HC = parse_line (rstripCRLF l)) ∧
      (recKind l = "RC" →
        (parse_rec_file (lines ++ [l])).RC = parse_line (rstripCRLF l)) ∧
      (recKind l = "VC" →
        (parse_rec_file (lines ++ [l])).VC = parse_line (rstripCRLF l)) ∧
      (recKind l = "TC" →
        (parse_rec_file (lines ++ [l])).TC = parse_line (rstripCRLF l)) ∧
      (recKind l = "NC" →
        (parse_rec_file (lines ++ [l])).NC =
          (parse_rec_file lines).NC ++ [parse_line (rstripCRLF l)]) ∧
      (recKind l = "MC" →
        (parse_rec_file (lines ++ [l])).MC =
          (parse_rec_file lines).MC ++ [parse_line (rstripCRLF l)])) ∧
    (parse_rec_file recFileSample).HC = parse_line "HC1" ∧
    (parse_rec_file recFileSample).RC = parse_line "RC1" ∧
    (parse_rec_file recFileSample).NC =
      [parse_line "NC1", parse_line "NC2", parse_line "NC3"] ∧
    (parse_rec_file recFileSample).TC = parse_line "TC1" ∧
    (parse_rec_file recFileSample).UNKNOWN = [] ∧
    (parse_rec_file recFileSample).HC ≠ [] ∧
    (parse_rec_file recFileSample).RC ≠ [] ∧
    (parse_rec_file recFileSample).TC ≠ [] := by
  refine ⟨?_, by decide, by decide, by decide, by decide, by decide, by decide, by decide,
    by decide⟩
  intro lines l
  have hfold : parse_rec_file (lines ++ [l]) = recStep (parse_rec_file lines) l := by
    simp [parse_rec_file, List.foldl_append]
  refine ⟨?_, ?_, ?_, ?_, ?_, ?_⟩ <;> intro h <;>
    rw [hfold] <;> simp only [recStep] <;> rw [show
      (alistGet "TP_REG" (parse_line (rstripCRLF l))).getD "UNKNOWN" = recKind l from rfl,
      h] <;> simp

/-- C9, witness for the universally quantified fold behavior. -/
theorem claim_C9_witness :
    (parse_rec_file (["HC1"] ++ ["NC9"])).NC =
      (parse_rec_file ["HC1"]).NC ++ [parse_line (rstripCRLF "NC9")] :=
  ((claim_C9.1 ["HC1"] "NC9").2.2.2.2.1) (by decide)

/-! ### Claim C10 — XML asset extraction and the carry-forward flag -/

theorem auto_repeat_construct (v : PyDecimal) (a b c d e : FieldVal) :
    auto_repeat v
      ([("grupo", a), ("codigo", b), ("pais", c), ("discriminacao", d)] ++
        [("valor_2023", e)]) = .ok v := by
  simp [auto_repeat, lookupField]

theorem construct_ok_fields {g c p d : String} {v23 v24 : PyDecimal} {r : Bool}
    {b : BemDireito} (h : BemDireito.construct g c p d v23 v24 r = .ok b) :
    b.repetir_valor = r ∧ b.valor_2024 = v24 ∧ b.valor_2023 = v23 := by
  simp only [BemDireito.construct] at h
  cases hv23 : validate_money "situacao_31_12_2023" v23 with
  | error e => rw [hv23] at h; cases h
  | ok w23 =>
    rw [hv23] at h
    cases hv24 : validate_money "situacao_31_12_2024" v24 with
    | error e => rw [hv24] at h; cases h
    | ok w24 =>
      rw [hv24] at h
      simp only [auto_repeat_construct, Except.ok.injEq] at h
      rw [← h]
      exact ⟨rfl, validate_money_ok hv24, validate_money_ok hv23⟩

/-- C10.  Every asset record successfully produced by the XML asset
extractor has its carry-forward flag `repetir_valor` set to `false`, and
its current-period value is exactly the parsed `valorExercicioAtual`
attribute of the originating item. -/
theorem claim_C10 :
    ∀ (doc : XmlDoc) (l : List BemDireito) (b : BemDireito),
      parse_bens doc = .ok l → b ∈ l →
      b.repetir_valor = false ∧
      ∃ item ∈ doc.bens, parse_money (item.get "valorExercicioAtual") = .ok b.valor_2024 := by
  intro doc l b h hb
  obtain ⟨item, hitem, hfi⟩ := mapME_ok_mem _ _ _ h b hb
  simp only [bemFromItem] at hfi
  cases h23 : parse_money (item.get "valorExercicioAnterior") with
  | error e => rw [h23] at hfi; cases hfi
  | ok s23 =>
    rw [h23] at hfi
    cases h24 : parse_money (item.get "valorExercicioAtual") with
    | error e => rw [h24] at hfi; cases hfi
    | ok s24 =>
      rw [h24] at hfi
      obtain ⟨hr, hv24, _⟩ := construct_ok_fields hfi
      exact ⟨hr, item, hitem, by rw [hv24]; exact h24⟩

/-- C10, witness at a concrete asset document. -/
theorem claim_C10_witness :
    (⟨"01", "01", "105", "Conta corrente", ⟨false, [1, 0, 0, 0, 0, 0], -2⟩,
      ⟨false, [2, 0, 0, 0, 0, 0], -2⟩, false⟩ : BemDireito).repetir_valor = false ∧
    ∃ item ∈ docBens.bens,
      parse_money (item.get "valorExercicioAtual") =
        .ok (⟨"01", "01", "105", "Conta corrente", ⟨false, [1, 0, 0, 0, 0, 0], -2⟩,
          ⟨false, [2, 0, 0, 0, 0, 0], -2⟩, false⟩ : BemDireito).valor_2024 :=
  claim_C10 docBens
    [⟨"01", "01", "105", "Conta corrente", ⟨false, [1, 0, 0, 0, 0, 0], -2⟩,
      ⟨false, [2, 0, 0, 0, 0, 0], -2⟩, false⟩]
    ⟨"01", "01", "105", "Conta corrente", ⟨false, [1, 0, 0, 0, 0, 0], -2⟩,
      ⟨false, [2, 0, 0, 0, 0, 0], -2⟩, false⟩
    (by decide) (by decide)

/-! ### Claim C1 — error handling of the exclusive-income extraction -/

theorem exclusivoFromItem_missing_cnpj (t : String) (item : XmlItem)
    (h : item.get "cnpjEmpresa" = none) : ∃ e, exclusivoFromItem t item = .error e := by
  simp only [exclusivoFromItem]
  cases hv : parse_money (item.get "valor") with
  | error e => exact ⟨e, rfl⟩
  | ok v =>
    simp only [RendExclusivo.construct, h, requireStr]
    exact ⟨.noneNotAllowed "cnpj_fonte_pagadora", rfl⟩

/-- C1, counterexample.  On an exclusive-income panel whose first item
lacks the payer tax id and whose second item is fully well formed, the
claim predicts extraction continues past the bad row and yields the
well-formed record together with one error; the code instead raises on the
bad row and aborts the whole schedule, yielding no records at all — in
particular not the singleton list of the well-formed record. -/
theorem claim_C1_counterexample :
    parse_rend_exclusivos docSegue = .error (.noneNotAllowed "cnpj_fonte_pagadora") ∧
    parse_rend_exclusivos docSegue ≠
      .ok [⟨"rendAplicacoesQuadroAuxiliar", "titular", none, "12345678000199", "Banco B",
        ⟨false, [5, 0, 0, 0], -2⟩⟩] := by decide

/-- C1, amended.  On the specification's scenario document the exempt-income
extraction does yield both well-formed records, and the single
exclusive-income item lacking the payer tax id does produce exactly one
required-field error naming `cnpj_fonte_pagadora` and zero constructed
exclusive records; but the error handling is fail-fast, not collect-all: a
missing required attribute on any item raises through the pydantic
constructor and aborts the whole exclusive-income extraction, as the final
universally quantified conjunct states for every document. -/
theorem claim_C1 :
    parse_rend_isentos docMisto = .ok
      [⟨"rendimentosPoupancaQuadroAuxiliar", "titular", none, none, some "Banco A",
        ⟨false, [1, 0, 0, 0, 0], -2⟩⟩,
       ⟨"rendimentosPoupancaQuadroAuxiliar", "titular", none, none,
        some "Rendimento de poupanca", ⟨false, [2, 0, 0, 0, 0], -2⟩⟩] ∧
    parse_rend_exclusivos docMisto = .error (.noneNotAllowed "cnpj_fonte_pagadora") ∧
    ∀ (doc : XmlDoc) (sec : List Panel) (panel : Panel) (item : XmlItem),
      sec ∈ doc.rendTributacaoExclusiva → panel ∈ sec → item ∈ panel.items →
      item.get "cnpjEmpresa" = none →
      ∃ e, parse_rend_exclusivos doc = .error e := by
  refine ⟨by decide, by decide, ?_⟩
  intro doc sec panel item hsec hpanel hitem hcnpj
  have h1 : ∃ e, mapME (exclusivoFromItem panel.tag) panel.items = .error e :=
    mapME_error_of_mem _ hitem (exclusivoFromItem_missing_cnpj panel.tag item hcnpj)
  have h2 : ∃ e, mapME (fun p : Panel => mapME (exclusivoFromItem p.tag) p.items) sec =
      .error e :=
    mapME_error_of_mem _ hpanel h1
  obtain ⟨e2, h2⟩ := h2
  have h3 : ∃ e, sectionExclusivos sec = .error e :=
    ⟨e2, by simp only [sectionExclusivos, h2]⟩
  obtain ⟨e4, h4⟩ := mapME_error_of_mem _ hsec h3
  exact ⟨e4, by simp only [parse_rend_exclusivos, h4]⟩

/-- C1, witness for the universally quantified fail-fast conjunct. -/
theorem claim_C1_witness :
    ∃ e, parse_rend_exclusivos docMisto = .error e :=
  claim_C1.2.2 docMisto [⟨"rendAplicacoesQuadroAuxiliar", [itemSemCnpj]⟩]
    ⟨"rendAplicacoesQuadroAuxiliar", [itemSemCnpj]⟩ itemSemCnpj
    (by decide) (by decide) (by decide) (by decide)

/-! ### Claim C4 — locale-decimal round trip: supporting lemmas -/

theorem char_eq_of_toNat_eq {a b : Char} (h : a.toNat = b.toNat) : a = b := by
  rw [← Char.ofNat_toNat a, ← Char.ofNat_toNat b, h]

theorem isDig_bounds {c : Char} (h : isDig c = true) : 48 ≤ c.toNat ∧ c.toNat ≤ 57 := by
  simp only [isDig, Bool.and_eq_true, decide_eq_true_eq] at h
  exact h

theorem charDigit_id {c : Char} (h : isDig c = true) : Char.ofNat (48 + charVal c) = c := by
  obtain ⟨h1, _⟩ := isDig_bounds h
  have hv : 48 + charVal c = c.toNat := by unfold charVal; omega
  rw [hv, Char.ofNat_toNat]

theorem map_digit_id {l : List Char} (h : ∀ x ∈ l, isDig x = true) :
    (l.map charVal).map (fun d => Char.ofNat (48 + d)) = l := by
  induction l with
  | nil => rfl
  | cons x xs ih =>
    simp only [List.map_cons, List.cons.injEq]
    exact ⟨charDigit_id (h x (List.mem_cons_self x xs)),
      ih (fun y hy => h y (List.mem_cons_of_mem x hy))⟩

theorem isDig_ne_special {c : Char} (h : isDig c = true) :
    c ≠ '.' ∧ c ≠ '-' ∧ c ≠ '+' := by
  obtain ⟨h1, _⟩ := isDig_bounds h
  refine ⟨?_, ?_, ?_⟩ <;> intro he <;> rw [he] at h1 <;> exact absurd h1 (by decide)

theorem charVal_eq_zero_iff {c : Char} (h : isDig c = true) : charVal c = 0 ↔ c = '0' := by
  constructor
  · intro h0
    obtain ⟨h1, _⟩ := isDig_bounds h
    have hn : c.toNat = 48 := by unfold charVal at h0; omega
    exact char_eq_of_toNat_eq (by rw [hn]; decide)
  · intro h0
    rw [h0]
    rfl

theorem pyIsSpace_money_char {c : Char}
    (h : isDig c = true ∨ c = '.' ∨ c = ',') : pyIsSpace c = false := by
  rcases h with h | h | h
  · obtain ⟨h1, h2⟩ := isDig_bounds h
    simp only [pyIsSpace, Bool.or_eq_false_iff, decide_eq_false_iff_not]
    refine ⟨⟨⟨⟨⟨?_, ?_⟩, ?_⟩, ?_⟩, ?_⟩, ?_⟩ <;> intro he <;> rw [he] at h1 <;>
      exact absurd h1 (by decide)
  · rw [h]; decide
  · rw [h]; decide

theorem dropWhile_eq_self_of_all {p : Char → Bool} {l : List Char}
    (h : ∀ x ∈ l, p x = false) : l.dropWhile p = l := by
  cases l with
  | nil => rfl
  | cons x xs =>
    rw [List.dropWhile_cons, h x (List.mem_cons_self x xs)]
    simp

theorem stripChars_eq_self {l : List Char} (h : ∀ x ∈ l, pyIsSpace x = false) :
    stripChars l = l := by
  unfold stripChars
  rw [dropWhile_eq_self_of_all h,
    dropWhile_eq_self_of_all (fun x hx => h x (List.mem_reverse.mp hx)),
    List.reverse_reverse]

theorem takeWhile_dot_split (F : List Char) :
    ∀ D : List Char, (∀ d ∈ D, isDig d = true) →
      (D ++ '.' :: F).takeWhile (· ≠ '.') = D ∧
      (D ++ '.' :: F).dropWhile (· ≠ '.') = '.' :: F := by
  intro D
  induction D with
  | nil =>
    intro _
    constructor <;> simp [List.takeWhile_cons, List.dropWhile_cons]
  | cons d D' ih =>
    intro h
    have hd : isDig d = true := h d (List.mem_cons_self d D')
    have hdot : d ≠ '.' := (isDig_ne_special hd).1
    obtain ⟨iht, ihd⟩ := ih (fun x hx => h x (List.mem_cons_of_mem d hx))
    constructor
    · rw [List.cons_append, List.takeWhile_cons]
      simp only [iht]
      simp [hdot]
    · rw [List.cons_append, List.dropWhile_cons]
      simp only [ihd]
      simp [hdot]

theorem normDigits_cons_ne {n : Nat} {l : List Nat} (h : n ≠ 0) :
    normDigits (n :: l) = n :: l := by
  unfold normDigits
  rw [List.dropWhile_cons]
  simp [h]

theorem dropWhile_headD {p : Char → Bool} :
    ∀ l : List Char, l.dropWhile p ≠ [] → p ((l.dropWhile p).headD ' ') = false := by
  intro l
  induction l with
  | nil => intro h; exact absurd rfl h
  | cons x xs ih =>
    rw [List.dropWhile_cons]
    by_cases hp : p x = true
    · simp only [hp, if_true]
      exact ih
    · intro _
      simp only [Bool.not_eq_true] at hp
      simp [hp]

theorem pyDecimalParse_eval (D F : List Char) (hD : ∀ x ∈ D, isDig x = true)
    (hF : ∀ x ∈ F, isDig x = true) (hDne : D ≠ []) :
    pyDecimalParse (D ++ '.' :: F) =
      .ok ⟨false, normDigits ((D ++ F).map charVal), -(F.length : Int)⟩ := by
  have hnospace : ∀ x ∈ D ++ '.' :: F, pyIsSpace x = false := by
    intro x hx
    apply pyIsSpace_money_char
    rcases List.mem_append.mp hx with hx | hx
    · exact Or.inl (hD x hx)
    · rcases List.mem_cons.mp hx with hx | hx
      · exact Or.inr (Or.inl hx)
      · exact Or.inl (hF x hx)
  obtain ⟨htake, hdrop⟩ := takeWhile_dot_split F D hD
  rcases D with _ | ⟨d0, D'⟩
  · exact absurd rfl hDne
  have hd0 : isDig d0 = true := hD d0 (List.mem_cons_self d0 D')
  obtain ⟨hdot, hdash, hplus⟩ := isDig_ne_special hd0
  have hall : ((d0 :: D') ++ F).all isDig = true := by
    rw [List.all_append]
    simp only [Bool.and_eq_true, List.all_eq_true]
    exact ⟨hD, hF⟩
  simp only [pyDecimalParse, stripChars_eq_self hnospace]
  simp only [List.cons_append] at htake hdrop ⊢
  simp only [if_neg hdash, if_neg hplus, htake, hdrop]
  simp only [List.cons_append] at hall
  simp only [List.drop_succ_cons, List.drop_zero]
  rw [if_pos]
  · rfl
  · constructor
    · simp
    · simpa using hall

theorem decStr_neg_exp_lt {dl : List Nat} {k : Nat} (hk : 0 < k) (hlt : k < dl.length) :
    decStr ⟨false, dl, -(k : Int)⟩ =
      ⟨(dl.map (fun d => Char.ofNat (48 + d))).take (dl.length - k) ++
        '.' :: (dl.map (fun d => Char.ofNat (48 + d))).drop (dl.length - k)⟩ := by
  simp only [decStr]
  rw [if_neg (by omega : ¬(-(k : Int) = 0))]
  simp only [Int.natAbs_neg, Int.natAbs_ofNat, List.length_map]
  rw [if_pos hlt]
  simp

theorem decStr_neg_exp_ge {dl : List Nat} {k : Nat} (hk : 0 < k) (hge : dl.length ≤ k) :
    decStr ⟨false, dl, -(k : Int)⟩ =
      ⟨'0' :: '.' :: (List.replicate (k - dl.length) '0' ++
        dl.map (fun d => Char.ofNat (48 + d)))⟩ := by
  simp only [decStr]
  rw [if_neg (by omega : ¬(-(k : Int) = 0))]
  simp only [Int.natAbs_neg, Int.natAbs_ofNat, List.length_map]
  rw [if_neg (by omega : ¬(k < dl.length))]
  simp

theorem decStr_big {D F : List Char} (hD : ∀ x ∈ D, isDig x = true)
    (hF : ∀ x ∈ F, isDig x = true) (hF2 : F.length = 2) (hDne : D ≠ [])
    (hhead : D.headD '0' ≠ '0') :
    decStr ⟨false, normDigits ((D ++ F).map charVal), -(F.length : Int)⟩ =
      ⟨D ++ '.' :: F⟩ := by
  rcases D with _ | ⟨d0, D'⟩
  · exact absurd rfl hDne
  have hd0 : isDig d0 = true := hD d0 (List.mem_cons_self d0 D')
  have hd0ne : d0 ≠ '0' := by simpa using hhead
  have hcv : charVal d0 ≠ 0 := fun h => hd0ne ((charVal_eq_zero_iff hd0).mp h)
  have hall : ∀ x ∈ (d0 :: D') ++ F, isDig x = true := by
    intro x hx
    rcases List.mem_append.mp hx with hx | hx
    · exact hD x hx
    · exact hF x hx
  have hnorm : normDigits (((d0 :: D') ++ F).map charVal) = ((d0 :: D') ++ F).map charVal := by
    rw [List.cons_append, List.map_cons, normDigits_cons_ne hcv, ← List.map_cons,
      ← List.cons_append]
  rw [hnorm, hF2]
  have hlt : 2 < (((d0 :: D') ++ F).map charVal).length := by
    simp [hF2]
  rw [decStr_neg_exp_lt (by omega) hlt]
  rw [map_digit_id hall]
  have hlen : (((d0 :: D') ++ F).map charVal).length = (d0 :: D').length + 2 := by
    simp [hF2]
  rw [hlen, Nat.add_sub_cancel,
    List.take_left' (rfl : (d0 :: D').length = (d0 :: D').length),
    List.drop_left' (rfl : (d0 :: D').length = (d0 :: D').length)]

theorem decStr_zero {F : List Char} (hF : ∀ x ∈ F, isDig x = true) (hF2 : F.length = 2) :
    decStr ⟨false, normDigits ((['0'] ++ F).map charVal), -(F.length : Int)⟩ =
      ⟨['0'] ++ '.' :: F⟩ := by
  rcases F with _ | ⟨f1, F1⟩
  · simp at hF2
  rcases F1 with _ | ⟨f2, F2⟩
  · simp at hF2
  rcases F2 with _ | ⟨f3, F3⟩
  · have hf1 : isDig f1 = true := hF f1 (by simp)
    have hf2 : isDig f2 = true := hF f2 (by simp)
    have hmapN : (['0'] ++ [f1, f2]).map charVal = [0, charVal f1, charVal f2] := by
      simp only [List.cons_append, List.nil_append, List.map_cons, List.map_nil]
      rw [show charVal '0' = 0 from rfl]
    by_cases h1 : charVal f1 = 0
    · have hf1e : f1 = '0' := (charVal_eq_zero_iff hf1).mp h1
      by_cases h2 : charVal f2 = 0
      · have hf2e : f2 = '0' := (charVal_eq_zero_iff hf2).mp h2
        subst hf1e hf2e
        decide
      · subst hf1e
        have hnorm : normDigits ((['0'] ++ ['0', f2]).map charVal) = [charVal f2] := by
          unfold normDigits
          rw [show (['0'] ++ ['0', f2]).map charVal = [0, 0, charVal f2] from by
            simp only [List.cons_append, List.nil_append, List.map_cons, List.map_nil]
            rw [show charVal '0' = 0 from rfl]]
          rw [List.dropWhile_cons, List.dropWhile_cons, List.dropWhile_cons]
          simp [h2]
        rw [hnorm]
        rw [show (['0', f2] : List Char).length = 2 from rfl]
        rw [decStr_neg_exp_ge (by omega) (by simp)]
        simp only [List.map_cons, List.map_nil, charDigit_id hf2]
        rfl
    · have hnorm : normDigits ((['0'] ++ [f1, f2]).map charVal) =
          [charVal f1, charVal f2] := by
        unfold normDigits
        rw [hmapN, List.dropWhile_cons, List.dropWhile_cons]
        simp [h1]
      rw [hnorm]
      rw [show ([f1, f2] : List Char).length = 2 from rfl]
      rw [decStr_neg_exp_ge (by omega) (by simp)]
      simp only [List.map_cons, List.map_nil, charDigit_id hf1, charDigit_id hf2]
      rfl
  · simp at hF2

theorem roundtrip_core (D F : List Char) (hD : ∀ x ∈ D, isDig x = true)
    (hF : ∀ x ∈ F, isDig x = true) (hDne : D ≠ []) (hF2 : F.length = 2)
    (hlead : D.length = 1 ∨ D.headD '0' ≠ '0') :
    pyDecimalParse (D ++ '.' :: F) =
      .ok ⟨false, normDigits ((D ++ F).map charVal), -(F.length : Int)⟩ ∧
    decStr ⟨false, normDigits ((D ++ F).map charVal), -(F.length : Int)⟩ =
      ⟨D ++ '.' :: F⟩ := by
  refine ⟨pyDecimalParse_eval D F hD hF hDne, ?_⟩
  by_cases hz : D.headD '0' = '0'
  · have hD1 : D = ['0'] := by
      rcases D with _ | ⟨d0, D'⟩
      · exact absurd rfl hDne
      · have hd0 : d0 = '0' := by simpa using hz
        subst hd0
        rcases hlead with hlen | hne
        · rcases D' with _ | ⟨d1, D''⟩
          · rfl
          · simp at hlen
        · exact absurd (by simp) hne
    rw [hD1]
    exact decStr_zero hF hF2
  · exact decStr_big hD hF hF2 hDne hz

/-- C4.  For every valid locale-decimal string with at most 12 integer
digits and exactly 2 fraction digits, normalizing through `parse_money` and
serializing the resulting decimal with the two-fraction-digit money format
reproduces the canonical form of the input (thousands dots removed, comma
turned into the decimal point). -/
theorem claim_C4 : ∀ s : String, validMoneyLocale s = true →
    ∃ d : PyDecimal, parse_money (some s) = .ok d ∧ decStr d = canonical_money s := by
  intro s hv
  simp only [validMoneyLocale, Bool.and_eq_true, Bool.or_eq_true, decide_eq_true_eq,
    List.all_eq_true, ne_eq] at hv
  obtain ⟨⟨⟨⟨⟨⟨h0, h1⟩, h2⟩, h3⟩, h4⟩, h5⟩, h6⟩ := hv
  have hmoney : ∀ x ∈ s.data, isDig x = true ∨ x = '.' ∨ x = ',' := by
    intro x hx
    rcases h0 x hx with (h | h) | h
    · exact Or.inl h
    · exact Or.inr (Or.inl h)
    · exact Or.inr (Or.inr h)
  have hnospace : ∀ x ∈ s.data, pyIsSpace x = false :=
    fun x hx => pyIsSpace_money_char (hmoney x hx)
  rcases hrest : restOf (cleanChars s.data) with _ | ⟨r0, F⟩
  · rw [hrest] at h1; simp at h1
  have hr0 : r0 = '.' := by
    have hne : (cleanChars s.data).dropWhile (fun x => decide (x ≠ '.')) ≠ [] := by
      rw [show (cleanChars s.data).dropWhile (fun x => decide (x ≠ '.')) =
        restOf (cleanChars s.data) from rfl, hrest]
      simp
    have hh := dropWhile_headD (cleanChars s.data) hne
    rw [show (cleanChars s.data).dropWhile (fun x => decide (x ≠ '.')) =
      restOf (cleanChars s.data) from rfl, hrest] at hh
    simpa using hh
  subst hr0
  have hF2 : F.length = 2 := by rw [hrest] at h1; simpa using h1
  have hFdig : ∀ x ∈ F, isDig x = true := by
    rw [hrest] at h2
    simpa using h2
  have hsplit : cleanChars s.data = intPartOf (cleanChars s.data) ++ '.' :: F := by
    have hsp := List.takeWhile_append_dropWhile (fun x => decide (x ≠ '.'))
      (cleanChars s.data)
    rw [show (cleanChars s.data).dropWhile (fun x => decide (x ≠ '.')) =
      restOf (cleanChars s.data) from rfl, hrest] at hsp
    exact hsp.symm
  have hs_ne : s ≠ "" := by
    intro he
    subst he
    rw [show cleanChars ("" : String).data = [] from rfl] at hsplit
    simp at hsplit
  have hlead : (intPartOf (cleanChars s.data)).length = 1 ∨
      (intPartOf (cleanChars s.data)).headD '0' ≠ '0' := h6
  obtain ⟨hparse, hprint⟩ :=
    roundtrip_core (intPartOf (cleanChars s.data)) F h4 hFdig h3 hF2 hlead
  refine ⟨⟨false, normDigits ((intPartOf (cleanChars s.data) ++ F).map charVal),
    -(F.length : Int)⟩, ?_, ?_⟩
  · have hpp : parse_money (some s) = pyDecimalParse (cleanChars s.data) := by
      simp only [parse_money, pyOr, if_neg hs_ne, pyStrip]
      rw [stripChars_eq_self hnospace]
    rw [hpp]
    exact (congrArg pyDecimalParse hsplit).trans hparse
  · exact hprint.trans (congrArg String.mk hsplit.symm)

/-- C4, witness at a grouped locale amount. -/
theorem claim_C4_witness :
    validMoneyLocale "1.234,56" = true ∧
    ∃ d : PyDecimal, parse_money (some "1.234,56") = .ok d ∧
      decStr d = canonical_money "1.234,56" :=
  ⟨by decide, claim_C4 "1.234,56" (by decide)⟩

end IRPF
